import Mathlib

/-!
Verification of the basestamp-ts client core against its specification.

The development shallowly embeds the three source modules:

* `src/merkle.ts`   — `hashPair`, `verifyMerkleProof`, `calculateSHA256`;
* `src/types.ts`    — `MerkleProofData`, the `Stamp` class (constructor and
  `verify`), and the error taxonomy raised through `BasestampError`;
* `src/client.ts`   — the polling loop of `BasestampClient.getStamp`.

Byte strings are `List Nat` with every byte below 256; JavaScript strings are
Lean `String`; `Buffer.from(s, 'hex')` is `hexDecode`; `Buffer.from(s, 'utf8')`
is `utf8Bytes`; Node's `createHash('sha256')` is the executable SHA-256 below
(validated against the test vectors of `src/__tests__/merkle.test.ts`).
Thrown `BasestampError`s are distinguished by their failure kind and modelled
with `Except`.
-/

set_option maxRecDepth 100000
set_option maxHeartbeats 4000000

namespace Basestamp

/-! ### SHA-256 over byte lists (model of Node `createHash('sha256')`) -/

/-- Modulus of 32-bit machine words. -/
def M32 : Nat := 4294967296

/-- Addition modulo 2^32. -/
def add32 (a b : Nat) : Nat := (a + b) % M32

/-- Right rotation of a 32-bit word by `n` bits. -/
def rotr32 (n x : Nat) : Nat := ((x >>> n) ||| (x <<< (32 - n))) % M32

/-- Message-schedule sigma-0 of SHA-256. -/
def ssig0 (x : Nat) : Nat := (rotr32 7 x) ^^^ (rotr32 18 x) ^^^ (x >>> 3)

/-- Message-schedule sigma-1 of SHA-256. -/
def ssig1 (x : Nat) : Nat := (rotr32 17 x) ^^^ (rotr32 19 x) ^^^ (x >>> 10)

/-- Compression Sigma-0 of SHA-256. -/
def bsig0 (x : Nat) : Nat := (rotr32 2 x) ^^^ (rotr32 13 x) ^^^ (rotr32 22 x)

/-- Compression Sigma-1 of SHA-256. -/
def bsig1 (x : Nat) : Nat := (rotr32 6 x) ^^^ (rotr32 11 x) ^^^ (rotr32 25 x)

/-- Choice function of SHA-256 (bitwise complement taken inside 32 bits). -/
def chB (x y z : Nat) : Nat := (x &&& y) ^^^ ((x ^^^ 4294967295) &&& z)

/-- Majority function of SHA-256. -/
def majB (x y z : Nat) : Nat := (x &&& y) ^^^ (x &&& z) ^^^ (y &&& z)

/-- Round constants of SHA-256 (FIPS 180-4). -/
def shaK : List Nat :=
  [1116352408, 1899447441, 3049323471, 3921009573, 961987163, 1508970993,
   2453635748, 2870763221, 3624381080, 310598401, 607225278, 1426881987,
   1925078388, 2162078206, 2614888103, 3248222580, 3835390401, 4022224774,
   264347078, 604807628, 770255983, 1249150122, 1555081692, 1996064986,
   2554220882, 2821834349, 2952996808, 3210313671, 3336571891, 3584528711,
   113926993, 338241895, 666307205, 773529912, 1294757372, 1396182291,
   1695183700, 1986661051, 2177026350, 2456956037, 2730485921, 2820302411,
   3259730800, 3345764771, 3516065817, 3600352804, 4094571909, 275423344,
   430227734, 506948616, 659060556, 883997877, 958139571, 1322822218,
   1537002063, 1747873779, 1955562222, 2024104815, 2227730452, 2361852424,
   2428436474, 2756734187, 3204031479, 3329325298]

/-- Initial hash state of SHA-256 (FIPS 180-4). -/
def shaH0 : List Nat :=
  [1779033703, 3144134277, 1013904242, 2773480762,
   1359893119, 2600822924, 528734635, 1541459225]

/-- Big-endian grouping of bytes into 32-bit words. -/
def bytesToWords : List Nat → List Nat
  | a :: b :: c :: d :: rest => (((a * 256 + b) * 256 + c) * 256 + d) :: bytesToWords rest
  | _ => []

/-- Big-endian bytes of one 32-bit word. -/
def wordToBytes (w : Nat) : List Nat := [(w >>> 24) % 256, (w >>> 16) % 256, (w >>> 8) % 256, w % 256]

/-- Extension of the message schedule, carried with the most recent word first. -/
def extendW : Nat → List Nat → List Nat
  | 0, rev => rev
  | n + 1, rev =>
      extendW n ((add32 (add32 (ssig1 (rev.getD 1 0)) (rev.getD 6 0))
                        (add32 (ssig0 (rev.getD 14 0)) (rev.getD 15 0))) :: rev)

/-- The 64-word message schedule of one 64-byte block. -/
def schedule (block : List Nat) : List Nat := (extendW 48 (bytesToWords block).reverse).reverse

/-- SHA-256 compression of one 64-byte block into the running 8-word state. -/
def compressBlock (H : List Nat) (block : List Nat) : List Nat :=
  match H with
  | [a0, b0, c0, d0, e0, f0, g0, h0] =>
    let ws := schedule block
    let fin := (ws.zip shaK).foldl
      (fun st p =>
        match st, p with
        | (a, b, c, d, e, f, g, h), (wt, kt) =>
          let t1 := add32 h (add32 (bsig1 e) (add32 (chB e f g) (add32 kt wt)))
          let t2 := add32 (bsig0 a) (majB a b c)
          (add32 t1 t2, a, b, c, add32 d t1, e, f, g))
      (a0, b0, c0, d0, e0, f0, g0, h0)
    match fin with
    | (a, b, c, d, e, f, g, h) =>
      [add32 a0 a, add32 b0 b, add32 c0 c, add32 d0 d, add32 e0 e, add32 f0 f, add32 g0 g, add32 h0 h]
  | _ => H

/-- Block iteration of SHA-256; the fuel is any bound on the number of blocks. -/
def sha256Blocks : Nat → List Nat → List Nat → List Nat
  | _, H, [] => H
  | 0, H, _ :: _ => H
  | fuel + 1, H, b :: rest =>
      sha256Blocks fuel (compressBlock H ((b :: rest).take 64)) ((b :: rest).drop 64)

/-- Big-endian 8-byte encoding of the message bit length. -/
def lenBytes8 (n : Nat) : List Nat :=
  [(n >>> 56) % 256, (n >>> 48) % 256, (n >>> 40) % 256, (n >>> 32) % 256,
   (n >>> 24) % 256, (n >>> 16) % 256, (n >>> 8) % 256, n % 256]

/-- SHA-256 padding: 0x80, zeros to 56 mod 64, then the bit length. -/
def padMessage (msg : List Nat) : List Nat :=
  msg ++ 128 :: List.replicate ((119 - msg.length % 64) % 64) 0 ++ lenBytes8 (8 * msg.length)

/-- The final 8-word state of SHA-256 on a byte message. -/
def sha256Words (msg : List Nat) : List Nat :=
  let padded := padMessage msg
  sha256Blocks padded.length shaH0 padded

/-- The 32-byte SHA-256 digest of a byte message. -/
def sha256Bytes (msg : List Nat) : List Nat := (sha256Words msg).flatMap wordToBytes

/-! ### Hex and UTF-8 codecs (models of Node `Buffer` conversions) -/

/-- Lowercase hex digit of a nibble, as produced by `digest('hex')`. -/
def hexDigitChar (n : Nat) : Char := if n < 10 then Char.ofNat (48 + n) else Char.ofNat (87 + n)

/-- Two lowercase hex digits of one byte. -/
def byteToHex (b : Nat) : List Char := [hexDigitChar (b / 16), hexDigitChar (b % 16)]

/-- Lowercase hex string of a byte list. -/
def bytesToHex (l : List Nat) : String := String.mk (l.flatMap byteToHex)

/-- Value of one hex digit; accepts both cases, as Node's hex decoder does. -/
def hexVal (c : Char) : Option Nat :=
  if 48 ≤ c.toNat ∧ c.toNat ≤ 57 then some (c.toNat - 48)
  else if 97 ≤ c.toNat ∧ c.toNat ≤ 102 then some (c.toNat - 87)
  else if 65 ≤ c.toNat ∧ c.toNat ≤ 70 then some (c.toNat - 55)
  else none

/-- Node hex decoding: decode complete leading pairs, stop at the first
invalid character or lone trailing digit. -/
def hexDecodeList : List Char → List Nat
  | c1 :: c2 :: rest =>
    match hexVal c1, hexVal c2 with
    | some hi, some lo => (16 * hi + lo) :: hexDecodeList rest
    | _, _ => []
  | _ => []

/-- Model of `Buffer.from(s, 'hex')`. -/
def hexDecode (s : String) : List Nat := hexDecodeList s.data

/-- UTF-8 encoding of one code point. -/
def utf8EncodeChar (c : Char) : List Nat :=
  let n := c.toNat
  if n < 128 then [n]
  else if n < 2048 then [192 + n / 64, 128 + n % 64]
  else if n < 65536 then [224 + n / 4096, 128 + (n / 64) % 64, 128 + n % 64]
  else [240 + n / 262144, 128 + (n / 4096) % 64, 128 + (n / 64) % 64, 128 + n % 64]

/-- Model of `Buffer.from(s, 'utf8')`. -/
def utf8Bytes (s : String) : List Nat := s.data.flatMap utf8EncodeChar

/-- Model of `calculateSHA256` of `src/merkle.ts` on string input: hex digest
of the SHA-256 of the UTF-8 bytes. -/
def calculateSHA256 (s : String) : String := bytesToHex (sha256Bytes (utf8Bytes s))

/-- Lexicographic order on character lists by code point. -/
def charListLt : List Char → List Char → Bool
  | [], [] => false
  | [], _ :: _ => true
  | _ :: _, [] => false
  | a :: as, b :: bs =>
      if a.toNat < b.toNat then true
      else if b.toNat < a.toNat then false
      else charListLt as bs

/-- Model of the JavaScript string comparison `left < right` (lexicographic;
identical to the UTF-16 code-unit order on all strings of basic-plane
characters, in particular on hex strings). -/
def jsLt (a b : String) : Bool := charListLt a.data b.data

/-! ### src/merkle.ts -/

/-- Model of `hashPair` of `src/merkle.ts`: hex-decode both operands; on equal
byte length order them by the string comparison `left < right`, otherwise keep
encounter order; hash the concatenation. -/
def hashPair (left : String) (right : String) : String :=
  let leftBytes := hexDecode left
  let rightBytes := hexDecode right
  let combined :=
    if leftBytes.length = rightBytes.length then
      if jsLt left right then leftBytes ++ rightBytes else rightBytes ++ leftBytes
    else leftBytes ++ rightBytes
  bytesToHex (sha256Bytes combined)

/-- Model of the `MerkleProofData` interface of `src/types.ts`. -/
structure MerkleProofData where
  leaf_hash : String
  leaf_index : Nat
  siblings : List String
  directions : List Bool
  root_hash : String
deriving DecidableEq

/-- The sibling-combination loop of `verifyMerkleProof`: walk the path,
combining with the sibling on the side selected by the direction bit. -/
def foldChain : String → List (String × Bool) → String
  | current, [] => current
  | current, (sibling, direction) :: rest =>
      foldChain (if direction then hashPair current sibling else hashPair sibling current) rest

/-- Model of `verifyMerkleProof` of `src/merkle.ts` on a present proof object:
empty `leaf_hash` or `root_hash` fails, mismatched `siblings` and `directions`
lengths fail, otherwise the recomputed root is compared to `root_hash`. -/
def verifyMerkleProofCore (proof : MerkleProofData) : Bool :=
  if proof.leaf_hash = "" ∨ proof.root_hash = "" then false
  else if proof.siblings.length ≠ proof.directions.length then false
  else decide (foldChain proof.leaf_hash (proof.siblings.zip proof.directions) = proof.root_hash)

/-- Model of `verifyMerkleProof` of `src/merkle.ts`; `none` is the
null/undefined argument rejected by the leading `!proof` check. -/
def verifyMerkleProof : Option MerkleProofData → Bool
  | none => false
  | some proof => verifyMerkleProofCore proof

/-! ### Wire-format well-formedness (spec section 3) -/

/-- A 64-character hexadecimal hash string, the wire format of every hash
field of a ProofRecord. -/
def IsHex64 (s : String) : Prop :=
  s.data.length = 64 ∧ ∀ c ∈ s.data, (hexVal c).isSome = true

instance (s : String) : Decidable (IsHex64 s) := by
  unfold IsHex64; exact instDecidableAnd

/-- The ProofRecord well-formedness of the data model: hash fields are
64-character hex and `siblings` and `directions` have equal length. -/
def ProofRecordWF (p : MerkleProofData) : Prop :=
  IsHex64 p.leaf_hash ∧ IsHex64 p.root_hash ∧ (∀ s ∈ p.siblings, IsHex64 s) ∧
    p.siblings.length = p.directions.length

instance (p : MerkleProofData) : Decidable (ProofRecordWF p) := by
  unfold ProofRecordWF; exact instDecidableAnd

/-! ### src/types.ts -/

/-- Failure kinds of the thrown `BasestampError`s of `Stamp.verify`; each
constructor stands for one of the four distinct message templates. -/
inductive VerifyError where
  | proofNotAvailable
  | hashMismatch
  | leafHashMismatch
  | proofInvalid
deriving DecidableEq

/-- Model of the `StampData` record fetched from the transport; `nonce` and
`original_hash` are optional because the constructor defends against their
absence, and JavaScript treats a missing field as undefined. -/
structure StampData where
  stamp_id : String
  hash : String
  original_hash : Option String
  nonce : Option String
  timestamp : String
  status : String
  message : Option String
  tx_id : Option String
  block_hash : Option String
  network : Option String
  chain_id : Option String
  merkle_proof : Option MerkleProofData
deriving DecidableEq

/-- Model of the `Stamp` class state of `src/types.ts`; its `_verifier` and
`_hasher` fields are wired by `src/client.ts` to `verifyMerkleProof` and
`calculateSHA256`, so `Stamp.verify` below uses those functions directly. -/
structure Stamp where
  stamp_id : String
  hash : String
  original_hash : String
  nonce : String
  timestamp : String
  status : String
  message : Option String
  tx_id : Option String
  block_hash : Option String
  network : Option String
  chain_id : Option String
  merkle_proof : Option MerkleProofData
deriving DecidableEq

/-- JavaScript `x || dflt` on an optional string: undefined and the empty
string are falsy and yield the default. -/
def jsOrDefault : Option String → String → String
  | none, dflt => dflt
  | some s, dflt => if s = "" then dflt else s

/-- Model of the `Stamp` constructor: `original_hash` falls back to `hash`,
`nonce` falls back to the empty string, every other field is copied. -/
def Stamp.ofData (data : StampData) : Stamp :=
  { stamp_id := data.stamp_id
    hash := data.hash
    original_hash := jsOrDefault data.original_hash data.hash
    nonce := jsOrDefault data.nonce ("")
    timestamp := data.timestamp
    status := data.status
    message := data.message
    tx_id := data.tx_id
    block_hash := data.block_hash
    network := data.network
    chain_id := data.chain_id
    merkle_proof := data.merkle_proof }

/-- Model of `Stamp.verify` of `src/types.ts`. The source throws on the first
failed check and otherwise returns true; each throw site becomes the error of
its failure kind. The structural proof check shared after the nonce/legacy
branch of the source is inlined into both branches. -/
def Stamp.verify (s : Stamp) (original_hash : String) : Except VerifyError Bool :=
  match s.merkle_proof with
  | none => Except.error VerifyError.proofNotAvailable
  | some proof =>
    if original_hash ≠ s.original_hash then Except.error VerifyError.hashMismatch
    else if s.nonce ≠ "" then
      let expected := calculateSHA256 (s.nonce ++ s.original_hash)
      if expected ≠ proof.leaf_hash then Except.error VerifyError.leafHashMismatch
      else if verifyMerkleProofCore proof = false then Except.error VerifyError.proofInvalid
      else Except.ok true
    else
      if s.original_hash ≠ proof.leaf_hash then Except.error VerifyError.leafHashMismatch
      else if verifyMerkleProofCore proof = false then Except.error VerifyError.proofInvalid
      else Except.ok true

/-- Expected leaf hash of the specification (section 4.3): digest of the
plain-text concatenation in nonce mode, `original_hash` itself in legacy
mode. -/
def expectedLeafHash (s : Stamp) : String :=
  if s.nonce ≠ "" then calculateSHA256 (s.nonce ++ s.original_hash) else s.original_hash

/-- Verification contract exactly as the specification words it (section 4.4):
the four checks in their fixed short-circuit order, each failure surfacing its
own kind. Written from the spec for comparison with `Stamp.verify`. -/
def Stamp.verifySpec (s : Stamp) (candidate_hash : String) : Except VerifyError Bool :=
  match s.merkle_proof with
  | none => Except.error VerifyError.proofNotAvailable
  | some proof =>
    if candidate_hash ≠ s.original_hash then Except.error VerifyError.hashMismatch
    else if expectedLeafHash s ≠ proof.leaf_hash then Except.error VerifyError.leafHashMismatch
    else if verifyMerkleProofCore proof = false then Except.error VerifyError.proofInvalid
    else Except.ok true

/-! ### src/client.ts polling loop -/

/-- Failure kinds of `BasestampClient.getStamp`: the two `BasestampError`
messages of the loop, and the wrapped transport failure. -/
inductive PollError where
  | proofNotAvailable
  | timeout
  | transport
deriving DecidableEq

deriving instance DecidableEq for Except

/-- Observable outcome of one `getStamp` call: its result, the number of fetch
attempts performed, and the number of 1-second suspensions taken. -/
structure PollResult where
  result : Except PollError Stamp
  fetches : Nat
  sleeps : Nat
deriving DecidableEq

/-- The while loop of `getStamp`, by recursion on
`remaining = maxAttempts - attempts`: `remaining = 0` is the loop guard
failing (the trailing timeout throw), and the source condition
`attempts === maxAttempts - 1` is `remaining = 1`. The fetch oracle gives the
transport's answer to the n-th attempt; a transport failure is wrapped and
rethrown at once. -/
def pollLoop (fetch : Nat → Except String StampData) (wait : Bool) :
    Nat → Nat → Nat → Nat → PollResult
  | 0, _, fetches, sleeps => ⟨Except.error PollError.timeout, fetches, sleeps⟩
  | remaining + 1, attempts, fetches, sleeps =>
    match fetch attempts with
    | Except.error _ => ⟨Except.error PollError.transport, fetches + 1, sleeps⟩
    | Except.ok stampData =>
      match stampData.merkle_proof with
      | some _ => ⟨Except.ok (Stamp.ofData stampData), fetches + 1, sleeps⟩
      | none =>
        if wait = false ∨ remaining = 0 then
          ⟨Except.error PollError.proofNotAvailable, fetches + 1, sleeps⟩
        else pollLoop fetch wait remaining (attempts + 1) (fetches + 1) (sleeps + 1)

/-- Model of `BasestampClient.getStamp` of `src/client.ts`:
`maxAttempts = wait ? Math.ceil(timeout) : 1`, then the polling loop from
attempt 0. The numeric timeout is embedded as a rational. -/
def getStampPoll (fetch : Nat → Except String StampData) (wait : Bool) (timeout : ℚ) : PollResult :=
  let maxAttempts : Int := if wait then Int.ceil timeout else 1
  pollLoop fetch wait maxAttempts.toNat 0 0 0

/-! ### Concrete data used by witnesses and counterexamples -/

/-- The reference vector of the spec and of `src/__tests__/merkle.test.ts`. -/
def referenceProof : MerkleProofData :=
  { leaf_hash := "1b4f0e9851971998e732078544c96b36c3d01cedf7caa332359d6f1d83567014"
    leaf_index := 0
    siblings := ["60303ae22b998861bce3b28f33eec1be758a213c86c93c076dbe9f558c11c752"]
    directions := [true]
    root_hash := "587b1fe3afa386ce7cf9e99cf6f3b7f6a78a3c1ca6a549bbd467c992e482dc56" }

/-- A well-formed single-leaf proof whose leaf equals its root. -/
def singleLeafProof : MerkleProofData :=
  { leaf_hash := "1b4f0e9851971998e732078544c96b36c3d01cedf7caa332359d6f1d83567014"
    leaf_index := 0
    siblings := []
    directions := []
    root_hash := "1b4f0e9851971998e732078544c96b36c3d01cedf7caa332359d6f1d83567014" }

/-- A nonce-mode stamp whose proof carries a wrong leaf hash. -/
def nonceStamp : Stamp :=
  { stamp_id := "id1"
    hash := "testoriginal"
    original_hash := "testoriginal"
    nonce := "testnonce"
    timestamp := "2023-01-01T00:00:00Z"
    status := "confirmed"
    message := none
    tx_id := none
    block_hash := none
    network := none
    chain_id := none
    merkle_proof := some
      { leaf_hash := "00"
        leaf_index := 0
        siblings := []
        directions := []
        root_hash := "00" } }

/-- A legacy-mode stamp carrying the reference proof, with `original_hash`
equal to the proof's leaf hash. -/
def legacyStamp : Stamp :=
  { stamp_id := "id2"
    hash := "1b4f0e9851971998e732078544c96b36c3d01cedf7caa332359d6f1d83567014"
    original_hash := "1b4f0e9851971998e732078544c96b36c3d01cedf7caa332359d6f1d83567014"
    nonce := ""
    timestamp := "2023-01-01T00:00:00Z"
    status := "confirmed"
    message := none
    tx_id := none
    block_hash := none
    network := none
    chain_id := none
    merkle_proof := some referenceProof }

/-- A fetched record that never carries a Merkle proof. -/
def noProofStampData : StampData :=
  { stamp_id := "id0"
    hash := "test-hash"
    original_hash := none
    nonce := none
    timestamp := "2023-01-01T00:00:00Z"
    status := "pending"
    message := none
    tx_id := none
    block_hash := none
    network := none
    chain_id := none
    merkle_proof := none }

end Basestamp

namespace Basestamp

/-! ### Sanity of the SHA-256 embedding against the repository's test vectors -/

example : calculateSHA256 ("hello world")
    = "b94d27b9934d3e08a52e52d7da7dabfac484efe37a5380ee9088f7ace2efcde9" := by decide

example : calculateSHA256 ("")
    = "e3b0c44298fc1c149afbf4c8996fb92427ae41e4649b934ca495991b7852b855" := by decide

example : calculateSHA256 ("testnoncetestoriginal")
    = "9eb1ed28077ad9510f19f6325b793d36d0e0d5e15041d2c759cc93e8b6f3503d" := by decide

/-! ### Helper lemmas -/

lemma hexVal_hexDigitChar : ∀ n, n < 16 → hexVal (hexDigitChar n) = some n := by decide

lemma hexDecodeList_byteToHex (b : Nat) (rest : List Char) (hb : b < 256) :
    hexDecodeList (byteToHex b ++ rest) = b :: hexDecodeList rest := by
  have h1 : b / 16 < 16 := by omega
  have h2 : b % 16 < 16 := by omega
  simp only [byteToHex, List.cons_append, List.nil_append, hexDecodeList,
    hexVal_hexDigitChar _ h1, hexVal_hexDigitChar _ h2]
  congr 1
  omega

lemma hexDecode_bytesToHex (l : List Nat) (h : ∀ b ∈ l, b < 256) :
    hexDecode (bytesToHex l) = l := by
  unfold hexDecode bytesToHex
  show hexDecodeList (l.flatMap byteToHex) = l
  induction l with
  | nil => rfl
  | cons b t ih =>
      rw [List.flatMap_cons, hexDecodeList_byteToHex b _ (h b (by simp))]
      rw [ih (fun x hx => h x (by simp [hx]))]

lemma compressBlock_length (H block : List Nat) :
    (compressBlock H block).length = H.length := by
  unfold compressBlock
  split
  · simp
  · rfl

lemma sha256Blocks_length (fuel : Nat) (H msg : List Nat) :
    (sha256Blocks fuel H msg).length = H.length := by
  induction fuel generalizing H msg with
  | zero => cases msg <;> simp [sha256Blocks]
  | succ f ih => cases msg <;> simp [sha256Blocks, ih, compressBlock_length]

lemma sha256Words_length (msg : List Nat) : (sha256Words msg).length = 8 := by
  unfold sha256Words
  rw [sha256Blocks_length]
  rfl

lemma flatMap_wordToBytes_length (l : List Nat) : (l.flatMap wordToBytes).length = 4 * l.length := by
  induction l with
  | nil => rfl
  | cons w t ih => simp [wordToBytes, ih]; omega

lemma sha256Bytes_length (msg : List Nat) : (sha256Bytes msg).length = 32 := by
  unfold sha256Bytes
  rw [flatMap_wordToBytes_length, sha256Words_length]

lemma sha256Bytes_lt (msg : List Nat) : ∀ b ∈ sha256Bytes msg, b < 256 := by
  intro b hb
  unfold sha256Bytes at hb
  rw [List.mem_flatMap] at hb
  obtain ⟨w, _, hw⟩ := hb
  simp [wordToBytes] at hw
  rcases hw with h | h | h | h <;> omega

lemma hexDecode_hashPair_length (a b : String) : (hexDecode (hashPair a b)).length = 32 := by
  unfold hashPair
  rw [hexDecode_bytesToHex _ (sha256Bytes_lt _), sha256Bytes_length]

lemma charListLt_asymm : ∀ as bs, charListLt as bs = true → charListLt bs as = false
  | [], [], _ => rfl
  | [], _ :: _, _ => rfl
  | _ :: _, [], h => by simp [charListLt] at h
  | a :: as, b :: bs, h => by
      simp only [charListLt] at h ⊢
      by_cases hab : a.toNat < b.toNat
      · simp [hab, show ¬ b.toNat < a.toNat by omega]
      · by_cases hba : b.toNat < a.toNat
        · simp [hab, hba] at h
        · simp only [hab, if_neg hba, if_false] at h
          simp [hab, hba, charListLt_asymm as bs h]

lemma charListLt_antisymm : ∀ as bs, charListLt as bs = false → charListLt bs as = false → as = bs
  | [], [], _, _ => rfl
  | [], _ :: _, h, _ => by simp [charListLt] at h
  | _ :: _, [], _, h => by simp [charListLt] at h
  | a :: as, b :: bs, h, h' => by
      simp only [charListLt] at h h'
      by_cases hab : a.toNat < b.toNat
      · simp [hab] at h
      · by_cases hba : b.toNat < a.toNat
        · simp [hba] at h'
        · have hn : a.toNat = b.toNat := by omega
          have hc : a = b := Char.ext (UInt32.ext hn)
          simp only [hab, hba, if_false] at h h'
          rw [hc, charListLt_antisymm as bs (by simpa using h) (by simpa using h')]

lemma hashPair_comm_of_length (a b : String)
    (h : (hexDecode a).length = (hexDecode b).length) : hashPair a b = hashPair b a := by
  simp only [hashPair]
  rw [if_pos h, if_pos h.symm]
  cases hab : jsLt a b with
  | true =>
      have hba : jsLt b a = false := charListLt_asymm a.data b.data hab
      simp [hab, hba]
  | false =>
      cases hba : jsLt b a with
      | true => simp [hab, hba]
      | false =>
          have hd : a.data = b.data := charListLt_antisymm a.data b.data hab hba
          have hab' : a = b := by cases a; cases b; exact congrArg String.mk hd
          rw [hab']

end Basestamp

namespace Basestamp

lemma hexDecodeList_length_of_valid (cs : List Char)
    (h : ∀ c ∈ cs, (hexVal c).isSome = true) :
    (hexDecodeList cs).length = cs.length / 2 := by
  match cs with
  | [] => simp [hexDecodeList]
  | [c] => simp [hexDecodeList]
  | c1 :: c2 :: rest =>
      obtain ⟨v1, hv1⟩ := Option.isSome_iff_exists.mp (h c1 (by simp))
      obtain ⟨v2, hv2⟩ := Option.isSome_iff_exists.mp (h c2 (by simp))
      have ih := hexDecodeList_length_of_valid rest (fun c hc => h c (by simp [hc]))
      simp only [hexDecodeList, hv1, hv2, List.length_cons, ih]
      omega

lemma IsHex64.decode_length {s : String} (h : IsHex64 s) : (hexDecode s).length = 32 := by
  unfold hexDecode
  rw [hexDecodeList_length_of_valid s.data h.2, h.1]

lemma IsHex64.ne_empty {s : String} (h : IsHex64 s) : s ≠ "" := by
  intro he
  subst he
  simpa using h.1

lemma foldChain_directions_eq (sibs : List String) :
    ∀ (cur : String) (ds ds' : List Bool),
    ds.length = sibs.length → ds'.length = sibs.length →
    (hexDecode cur).length = 32 → (∀ s ∈ sibs, (hexDecode s).length = 32) →
    foldChain cur (sibs.zip ds) = foldChain cur (sibs.zip ds') := by
  induction sibs with
  | nil => intro cur ds ds' _ _ _ _; rfl
  | cons s t ih =>
      intro cur ds ds' hd hd' hcur hs
      match ds, ds' with
      | d :: dt, d' :: dt' =>
        have hstep : ∀ x : Bool, (if x then hashPair cur s else hashPair s cur) = hashPair cur s := by
          intro x
          cases x
          · exact hashPair_comm_of_length s cur (by rw [hs s (by simp), hcur])
          · rfl
        simp only [List.zip_cons_cons, foldChain, hstep]
        exact ih (hashPair cur s) dt dt' (by simpa using hd) (by simpa using hd')
          (hexDecode_hashPair_length cur s) (fun x hx => hs x (by simp [hx]))

lemma pollLoop_no_proof (fetch : Nat → Except String StampData)
    (hf : ∀ n, ∃ sd, fetch n = Except.ok sd ∧ sd.merkle_proof = none) :
    ∀ (remaining attempts fetches sleeps : Nat), 0 < remaining →
    pollLoop fetch true remaining attempts fetches sleeps
      = ⟨Except.error PollError.proofNotAvailable, fetches + remaining, sleeps + (remaining - 1)⟩ := by
  intro remaining
  induction remaining with
  | zero => intro _ _ _ h; omega
  | succ r ih =>
      intro attempts fetches sleeps _
      obtain ⟨sd, hsd, hnp⟩ := hf attempts
      rw [pollLoop, hsd]
      simp only [hnp]
      cases r with
      | zero => simp
      | succ r' =>
          rw [if_neg (by simp)]
          rw [ih (attempts + 1) (fetches + 1) (sleeps + 1) (by omega)]
          simp only [PollResult.mk.injEq, and_true, true_and]
          omega

end Basestamp

namespace Basestamp

/-! ### Claim theorems -/

/-- C1: For every Stamp and candidate hash, `Stamp.verify` performs its checks
in the fixed short-circuit order of the spec — absent proof, candidate
mismatch, mode-derived leaf mismatch, structural failure — surfacing the
distinct error kind of each failure cause (the four kinds are the four
distinct constructors of `VerifyError`), and returns true otherwise; this is
stated as equality with `Stamp.verifySpec`, the check sequence written from
the spec's own words. -/
theorem stamp_verify_order_spec (s : Stamp) (c : String) :
    Stamp.verify s c = Stamp.verifySpec s c := by
  unfold Stamp.verify Stamp.verifySpec expectedLeafHash
  cases s.merkle_proof with
  | none => rfl
  | some p =>
      by_cases h1 : c = s.original_hash <;> by_cases hn : s.nonce = "" <;>
        simp [h1, hn]

/-- C3: `verifyMerkleProof` is a total boolean predicate (it is a Lean
function into `Bool`, so it returns a boolean on every input and never
raises); it returns false on an absent proof, false when `leaf_hash` or
`root_hash` is the empty string, and false on mismatched `siblings` and
`directions` lengths, the last unconditionally in the other fields. -/
theorem verifyMerkleProof_total_structural (q : MerkleProofData) :
    verifyMerkleProof none = false
  ∧ (q.leaf_hash = "" ∨ q.root_hash = "" → verifyMerkleProof (some q) = false)
  ∧ (q.siblings.length ≠ q.directions.length → verifyMerkleProof (some q) = false) := by
  refine ⟨rfl, ?_, ?_⟩
  · intro h
    simp [verifyMerkleProof, verifyMerkleProofCore, h]
  · intro h
    show verifyMerkleProofCore q = false
    unfold verifyMerkleProofCore
    split_ifs with h1 <;> simp_all

/-- C3 witness: concrete evaluations of the three structural-failure cases. -/
theorem verifyMerkleProof_total_structural_witness :
    verifyMerkleProof none = false
  ∧ verifyMerkleProof (some ⟨"", 0, [], [], "ab"⟩) = false
  ∧ verifyMerkleProof (some ⟨"ab", 0, [], [true], "ab"⟩) = false :=
  ⟨(verifyMerkleProof_total_structural ⟨"", 0, [], [], "ab"⟩).1,
   (verifyMerkleProof_total_structural ⟨"", 0, [], [], "ab"⟩).2.1 (Or.inl rfl),
   (verifyMerkleProof_total_structural ⟨"ab", 0, [], [true], "ab"⟩).2.2 (by decide)⟩

/-- C9: the result of `verifyMerkleProof` does not depend on `leaf_index`:
two proofs agreeing on `leaf_hash`, `siblings`, `directions` and `root_hash`
verify identically. -/
theorem verify_ignores_leaf_index (p q : MerkleProofData)
    (h1 : p.leaf_hash = q.leaf_hash) (h2 : p.siblings = q.siblings)
    (h3 : p.directions = q.directions) (h4 : p.root_hash = q.root_hash) :
    verifyMerkleProof (some p) = verifyMerkleProof (some q) := by
  simp only [verifyMerkleProof, verifyMerkleProofCore, h1, h2, h3, h4]

/-- C9 witness: the reference proof and its copy with a different
`leaf_index` verify identically. -/
theorem verify_ignores_leaf_index_witness :
    verifyMerkleProof (some referenceProof)
      = verifyMerkleProof (some { referenceProof with leaf_index := 5 }) :=
  verify_ignores_leaf_index referenceProof { referenceProof with leaf_index := 5 }
    rfl rfl rfl rfl

/-- C10: the Stamp constructor silently defaults missing fields: an absent or
empty `nonce` becomes the empty string (the selector of the legacy
verification path), and an absent `original_hash` falls back to the record's
`hash` field. -/
theorem stamp_constructor_defaults (d : StampData) :
    ((d.nonce = none ∨ d.nonce = some ("")) → (Stamp.ofData d).nonce = "")
  ∧ (d.original_hash = none → (Stamp.ofData d).original_hash = d.hash) := by
  constructor
  · intro h
    rcases h with h | h <;> simp [Stamp.ofData, jsOrDefault, h]
  · intro h
    simp [Stamp.ofData, jsOrDefault, h]

/-- C10 witness: the defaults on a record missing both fields. -/
theorem stamp_constructor_defaults_witness :
    (Stamp.ofData noProofStampData).nonce = ""
  ∧ (Stamp.ofData noProofStampData).original_hash = noProofStampData.hash :=
  ⟨(stamp_constructor_defaults noProofStampData).1 (Or.inl rfl),
   (stamp_constructor_defaults noProofStampData).2 rfl⟩

end Basestamp

namespace Basestamp

/-- C5: on a well-formed ProofRecord with an empty siblings list,
`verifyMerkleProof` returns true exactly when `leaf_hash` equals
`root_hash`. -/
theorem verify_empty_siblings_iff (p : MerkleProofData) (hwf : ProofRecordWF p)
    (hs : p.siblings = []) :
    verifyMerkleProof (some p) = true ↔ p.leaf_hash = p.root_hash := by
  obtain ⟨hl, hr, _, hlen⟩ := hwf
  have hd : p.directions = [] := by
    rw [hs] at hlen
    exact (List.length_eq_zero.mp hlen.symm)
  show verifyMerkleProofCore p = true ↔ _
  unfold verifyMerkleProofCore
  rw [if_neg (by push_neg; exact ⟨hl.ne_empty, hr.ne_empty⟩), hs, hd]
  simp [foldChain]

/-- C5 witness: a single-leaf proof with equal leaf and root verifies. -/
theorem verify_empty_siblings_iff_witness :
    verifyMerkleProof (some singleLeafProof) = true :=
  (verify_empty_siblings_iff singleLeafProof (by decide) rfl).mpr rfl

/-- C4: `hashPair` is commutative on operands of equal decoded byte length —
in particular on all 64-character hex hash values — and consequently, on a
well-formed ProofRecord, flipping any single `directions` bit leaves the
result of `verifyMerkleProof` unchanged. -/
theorem hashPair_comm_direction_flip :
    (∀ a b : String, (hexDecode a).length = (hexDecode b).length →
        hashPair a b = hashPair b a)
  ∧ (∀ (p : MerkleProofData) (i : Nat), ProofRecordWF p →
      verifyMerkleProof (some { p with
          directions := p.directions.set i (!(p.directions.getD i false)) })
        = verifyMerkleProof (some p)) := by
  constructor
  · exact hashPair_comm_of_length
  · intro p i hwf
    obtain ⟨hl, hr, hsibs, hlen⟩ := hwf
    obtain ⟨lh, li, ss, ds, rh⟩ := p
    simp only at hl hr hsibs hlen
    show verifyMerkleProofCore _ = verifyMerkleProofCore _
    unfold verifyMerkleProofCore
    simp only [List.length_set]
    rw [foldChain_directions_eq ss lh (ds.set i (!(ds.getD i false))) ds
      (by simp [hlen]) hlen.symm hl.decode_length
      (fun x hx => (hsibs x hx).decode_length)]

/-- C4 witness: commutativity on the reference leaf and sibling, and
direction-bit inertness on the reference proof. -/
theorem hashPair_comm_direction_flip_witness :
    hashPair ("1b4f0e9851971998e732078544c96b36c3d01cedf7caa332359d6f1d83567014")
        ("60303ae22b998861bce3b28f33eec1be758a213c86c93c076dbe9f558c11c752")
      = hashPair ("60303ae22b998861bce3b28f33eec1be758a213c86c93c076dbe9f558c11c752")
        ("1b4f0e9851971998e732078544c96b36c3d01cedf7caa332359d6f1d83567014")
  ∧ verifyMerkleProof (some { referenceProof with
        directions := referenceProof.directions.set 0 (!(referenceProof.directions.getD 0 false)) })
      = verifyMerkleProof (some referenceProof) :=
  ⟨hashPair_comm_direction_flip.1 _ _ (by decide),
   hashPair_comm_direction_flip.2 referenceProof 0 (by decide)⟩

/-- C6: in nonce mode the expected leaf is the SHA-256 digest of the
plain-text concatenation of the nonce and the hex `original_hash`
(`calculateSHA256` hashes UTF-8 text, not hex-decoded bytes), and whenever
that digest differs from the proof's `leaf_hash`, `Stamp.verify` fails with
the leaf-hash-mismatch error; no assumption is made on the structural check,
so the failure occurs even when that check alone would succeed. -/
theorem nonce_mode_leaf_mismatch (s : Stamp) (p : MerkleProofData)
    (hp : s.merkle_proof = some p) (hn : s.nonce ≠ "")
    (hleaf : calculateSHA256 (s.nonce ++ s.original_hash) ≠ p.leaf_hash) :
    Stamp.verify s s.original_hash = Except.error VerifyError.leafHashMismatch := by
  unfold Stamp.verify
  rw [hp]
  simp [hn, hleaf]

/-- C6 witness: a nonce-mode stamp whose proof carries a wrong leaf hash. -/
theorem nonce_mode_leaf_mismatch_witness :
    Stamp.verify nonceStamp nonceStamp.original_hash
      = Except.error VerifyError.leafHashMismatch :=
  nonce_mode_leaf_mismatch nonceStamp _ rfl (by decide) (by decide)

/-- C7: in legacy mode (empty nonce), on a present proof and a candidate
equal to the stamp's `original_hash`, verification succeeds exactly when
`original_hash` equals the proof's `leaf_hash` verbatim — no hashing enters
the comparison — and the structural check passes. -/
theorem legacy_mode_verify_iff (s : Stamp) (p : MerkleProofData)
    (hp : s.merkle_proof = some p) (hn : s.nonce = "") :
    Stamp.verify s s.original_hash = Except.ok true
      ↔ (s.original_hash = p.leaf_hash ∧ verifyMerkleProofCore p = true) := by
  unfold Stamp.verify
  rw [hp]
  by_cases h1 : s.original_hash = p.leaf_hash <;>
    by_cases h2 : verifyMerkleProofCore p = true <;>
      simp [hn, h1, h2]

/-- C7 witness: the legacy stamp over the reference proof verifies. -/
theorem legacy_mode_verify_iff_witness :
    Stamp.verify legacyStamp legacyStamp.original_hash = Except.ok true :=
  (legacy_mode_verify_iff legacyStamp referenceProof rfl rfl).mpr ⟨rfl, by decide⟩

end Basestamp

namespace Basestamp

/-- C8: `verifyMerkleProof` accepts the reference vector of the spec and of
the repository's tests, and rejects the same proof under every other root
string. -/
theorem reference_vector_verify :
    verifyMerkleProof (some referenceProof) = true
  ∧ ∀ s : String, s ≠ referenceProof.root_hash →
      verifyMerkleProof (some { referenceProof with root_hash := s }) = false := by
  constructor
  · decide
  · intro s hs
    simp only [referenceProof] at hs
    by_cases hse : s = ""
    · simp [verifyMerkleProof, verifyMerkleProofCore, referenceProof, hse]
    · show verifyMerkleProofCore _ = false
      unfold verifyMerkleProofCore
      simp only [referenceProof]
      rw [if_neg (by push_neg; exact ⟨by decide, hse⟩), if_neg (by decide)]
      simp only [show foldChain ("1b4f0e9851971998e732078544c96b36c3d01cedf7caa332359d6f1d83567014")
            ((["60303ae22b998861bce3b28f33eec1be758a213c86c93c076dbe9f558c11c752"]).zip [true])
          = "587b1fe3afa386ce7cf9e99cf6f3b7f6a78a3c1ca6a549bbd467c992e482dc56" from by decide]
      exact decide_eq_false (fun h => hs h.symm)

/-- C8 witness: the reference proof with a wrong root is rejected. -/
theorem reference_vector_verify_witness :
    verifyMerkleProof (some { referenceProof with root_hash := "00" }) = false :=
  reference_vector_verify.2 ("00") (by decide)

/-- C2 counterexample: with `wait = true`, `timeout = 3`, and a transport
that never returns a proof, `getStamp` fails with the proof-not-available
error, not with the timeout error the claim requires: the source throws
`Merkle proof not yet available` on the final attempt (its
`attempts === maxAttempts - 1` test), leaving the timeout throw after the
loop unreachable for any positive attempt budget. -/
theorem getStamp_wait_timeout_counterexample :
    (getStampPoll (fun _ => Except.ok noProofStampData) true 3).result
        = Except.error PollError.proofNotAvailable
  ∧ (getStampPoll (fun _ => Except.ok noProofStampData) true 3).result
        ≠ Except.error PollError.timeout := by
  constructor <;> decide

/-- C2 (amended): with `wait = true` and `timeout = t > 0`, when every fetch
returns a record without a proof and no fetch fails, exactly `ceil t` fetch
attempts are performed with a 1-second suspension between consecutive
attempts (`ceil t - 1` suspensions), and the call fails with the
proof-not-available error (the timeout error is reachable only when
`ceil t` is not positive); with `wait = false`, exactly one fetch attempt is
performed, no suspension, and the call fails with the same
proof-not-available error. -/
theorem getStamp_poll_no_proof (fetch : Nat → Except String StampData)
    (hf : ∀ n, ∃ sd, fetch n = Except.ok sd ∧ sd.merkle_proof = none)
    (t : ℚ) (ht : 0 < t) :
    getStampPoll fetch true t
        = ⟨Except.error PollError.proofNotAvailable, (Int.ceil t).toNat, (Int.ceil t).toNat - 1⟩
  ∧ getStampPoll fetch false t
        = ⟨Except.error PollError.proofNotAvailable, 1, 0⟩ := by
  have hpos : 0 < Int.ceil t := Int.ceil_pos.mpr ht
  constructor
  · show pollLoop fetch true (Int.ceil t).toNat 0 0 0 = _
    rw [pollLoop_no_proof fetch hf (Int.ceil t).toNat 0 0 0 (by omega)]
    simp
  · obtain ⟨sd, hsd, hnp⟩ := hf 0
    show pollLoop fetch false 1 0 0 0 = _
    rw [pollLoop, hsd]
    simp [hnp]

/-- C2 witness: the amended behavior at `timeout = 3` on a transport that
never returns a proof. -/
theorem getStamp_poll_no_proof_witness :
    getStampPoll (fun _ => Except.ok noProofStampData) true 3
        = ⟨Except.error PollError.proofNotAvailable, 3, 2⟩
  ∧ getStampPoll (fun _ => Except.ok noProofStampData) false 3
        = ⟨Except.error PollError.proofNotAvailable, 1, 0⟩ := by
  have h := getStamp_poll_no_proof (fun _ => Except.ok noProofStampData)
    (fun n => ⟨noProofStampData, rfl, rfl⟩) 3 (by decide)
  refine ⟨?_, h.2⟩
  rw [h.1]
  decide

end Basestamp
